import Mathlib

/-!
Shallow embedding of the market-opportunity-engine core
(`src/moe_algorithm.py` together with `src/utils/rate_limiter.py`):
the HTTP client wrapper `make_api_request`, the paginated fetcher
`fetch_domain_keywords`, the scorer `calculate_opportunity_score` and the
analyzer `analyze_market_opportunity`, with theorems settling the
specification claims about them.

Python numbers are modelled as rationals (and the score, which applies a
logarithm, as a real number); network effects are modelled by passing the
sequence of responses explicitly; `time.sleep` calls and issued requests are
recorded in an event log; a raised exception becomes an `Except.error`.
-/

namespace MOE

/-- One keyword row in the shape produced by `fetch_domain_keywords`
(`keyword, search_volume, position, traffic, difficulty, cpc`). -/
structure KeywordRecord where
  keyword : String
  search_volume : ℚ
  position : ℚ
  traffic : ℚ
  difficulty : ℚ
  cpc : ℚ
deriving DecidableEq, Repr

/-- `calculate_opportunity_score` from `src/moe_algorithm.py`.
`np.log1p x` is `Real.log (1 + x)` and `np.minimum (cpc / 5) 1` is
`min (cpc / 5) 1`; the four weights are the fixed constants of the source. -/
noncomputable def calculate_opportunity_score (row : KeywordRecord) : ℝ :=
  let volume_weight : ℝ := 0.3
  let position_weight : ℝ := 0.25
  let difficulty_weight : ℝ := 0.25
  let cpc_weight : ℝ := 0.2
  let volume_score : ℝ := Real.log (1 + (row.search_volume : ℝ)) / 10
  let position_score : ℝ := (100 - (row.position : ℝ)) / 100
  let difficulty_score : ℝ := (100 - (row.difficulty : ℝ)) / 100
  let cpc_score : ℝ := min ((row.cpc : ℝ) / 5) 1
  volume_score * volume_weight + position_score * position_weight +
    difficulty_score * difficulty_weight + cpc_score * cpc_weight

/-- The scoring formula exactly as the specification words it:
`score = 0.3*volume_score + 0.25*position_score + 0.25*difficulty_score
+ 0.2*cpc_score` with the four component scores of spec section 4.4. -/
noncomputable def score_spec (volume position difficulty cpc : ℚ) : ℝ :=
  0.3 * (Real.log (1 + (volume : ℝ)) / 10) +
    0.25 * ((100 - (position : ℝ)) / 100) +
    0.25 * ((100 - (difficulty : ℝ)) / 100) +
    0.2 * min ((cpc : ℝ) / 5) 1

/-- The keyword record of the worked example in the specification:
volume 100, position 10, difficulty 20, cpc 2. -/
def exampleRecord : KeywordRecord :=
  ⟨"example", 100, 10, 0, 20, 2⟩

/-- An HTTP error response as the `except` branch of `make_api_request` sees
it: the status code, the parsed `Retry-After` header when one is present, and
the response text. -/
structure ErrResponse where
  status : Nat
  retryAfter : Option Nat
  text : String
deriving DecidableEq, Repr

/-- Outcome of one `requests.get` call inside `make_api_request`:
a decoded 2xx payload (`raise_for_status` passes and `.json()` is returned),
an HTTP error response (`raise_for_status` raises and the `response` variable
holds the response), or a transport error raised by `requests.get` itself
(the `response` variable keeps whatever value it had before). -/
inductive AttemptOutcome where
  | ok (payload : String)
  | httpError (resp : ErrResponse)
  | netError (msg : String)
deriving DecidableEq, Repr

/-- The argument list `make_api_request` passes to `requests.get` at
`src/moe_algorithm.py` line 21: `url`, `headers`, `params` — and no `timeout`
argument, recorded here as `timeout := none` (the library then applies no
timeout at all). -/
structure RequestCall where
  url : String
  headers : List (String × String)
  params : List (String × String)
  timeout : Option Nat
deriving DecidableEq, Repr

/-- Observable result of one `make_api_request` call: the Python return value
or raised exception (`Except.error`), every issued request in order, and every
`time.sleep` duration in order. A Python `return None` (falling off the end of
the retry loop) is `Except.ok none`. -/
structure ApiCallResult where
  result : Except String (Option String)
  calls : List RequestCall
  sleeps : List Nat
deriving Repr

/-- The error text of the final raise: `str(e)` when no response was ever
assigned, otherwise `HTTP status: text` built from the stored response. -/
def errorText (response : Option ErrResponse) (e : String) : String :=
  match response with
  | some r => "HTTP " ++ toString r.status ++ ": " ++ r.text
  | none => e

/-- The full message of the exception `make_api_request` raises after its
final attempt. -/
def failureMessage (retries : Nat) (response : Option ErrResponse) (e : String) : String :=
  "API request failed after " ++ toString retries ++ " attempts: " ++ errorText response e

/-- The retry loop of `make_api_request`. `trace n` is the outcome of the
n-th `requests.get` call (the loop issues exactly one request per iteration),
`attempt` is the Python loop index, `remaining` the number of loop iterations
left (`retries - attempt`), `response` the Python `response` variable — which
persists across iterations — and `calls`/`sleeps` the event log so far.
Mirrors the source: on an exception, a stored response with status 429 sleeps
the parsed `Retry-After` (default 60) and continues; otherwise the final
attempt raises and a non-final attempt sleeps `delay * 2 ^ attempt` and
continues. Falling out of the loop returns `none`. -/
def runAttempts (trace : Nat → AttemptOutcome) (url : String)
    (headers params : List (String × String)) (retries delay : Nat) :
    Nat → Nat → Option ErrResponse → List RequestCall → List Nat → ApiCallResult
  | _, 0, _, calls, sleeps => ⟨Except.ok none, calls, sleeps⟩
  | attempt, remaining + 1, response, calls, sleeps =>
    let calls' := calls ++ [⟨url, headers, params, none⟩]
    match trace attempt with
    | AttemptOutcome.ok payload => ⟨Except.ok (some payload), calls', sleeps⟩
    | AttemptOutcome.httpError resp =>
      if resp.status = 429 then
        runAttempts trace url headers params retries delay (attempt + 1) remaining
          (some resp) calls' (sleeps ++ [resp.retryAfter.getD 60])
      else if attempt = retries - 1 then
        ⟨Except.error (failureMessage retries (some resp) ""), calls', sleeps⟩
      else
        runAttempts trace url headers params retries delay (attempt + 1) remaining
          (some resp) calls' (sleeps ++ [delay * 2 ^ attempt])
    | AttemptOutcome.netError msg =>
      match response with
      | some r =>
        if r.status = 429 then
          runAttempts trace url headers params retries delay (attempt + 1) remaining
            (some r) calls' (sleeps ++ [r.retryAfter.getD 60])
        else if attempt = retries - 1 then
          ⟨Except.error (failureMessage retries (some r) msg), calls', sleeps⟩
        else
          runAttempts trace url headers params retries delay (attempt + 1) remaining
            (some r) calls' (sleeps ++ [delay * 2 ^ attempt])
      | none =>
        if attempt = retries - 1 then
          ⟨Except.error (failureMessage retries none msg), calls', sleeps⟩
        else
          runAttempts trace url headers params retries delay (attempt + 1) remaining
            none calls' (sleeps ++ [delay * 2 ^ attempt])

/-- `make_api_request` from `src/moe_algorithm.py`: run the retry loop from
attempt 0 with an unassigned `response` variable and an empty event log.
The source defaults are `retries = 3`, `delay = 1`. -/
def make_api_request (trace : Nat → AttemptOutcome) (url : String)
    (headers params : List (String × String)) (retries delay : Nat) : ApiCallResult :=
  runAttempts trace url headers params retries delay 0 retries none [] []

/-- Does an attempt outcome carry an HTTP response with status 429? -/
def is429 : AttemptOutcome → Bool
  | AttemptOutcome.httpError resp => resp.status = 429
  | _ => false

/-- The sleep a 429 outcome causes: its parsed `Retry-After` header, default
60. Junk value 60 on the other outcome shapes. -/
def retryAfterOf : AttemptOutcome → Nat
  | AttemptOutcome.httpError resp => resp.retryAfter.getD 60
  | _ => 60

/-- The sleeps of `n` consecutive 429 iterations starting at `attempt`. -/
def sleepsFor429 (trace : Nat → AttemptOutcome) : Nat → Nat → List Nat
  | _, 0 => []
  | attempt, n + 1 => retryAfterOf (trace attempt) :: sleepsFor429 trace (attempt + 1) n

/-- The exponential-backoff sleeps of `n` consecutive non-429 failing
iterations starting at `attempt`: `delay * 2 ^ attempt`, then
`delay * 2 ^ (attempt + 1)`, and so on. -/
def backoffSleeps (delay : Nat) : Nat → Nat → List Nat
  | _, 0 => []
  | attempt, n + 1 => delay * 2 ^ attempt :: backoffSleeps delay (attempt + 1) n

/-- A trace whose first three responses are 429 with `Retry-After: 5` and
whose fourth would succeed. -/
def trace429x3 : Nat → AttemptOutcome := fun n =>
  if n < 3 then AttemptOutcome.httpError ⟨429, some 5, "rate limited"⟩
  else AttemptOutcome.ok "payload"

/-- A trace in which every request receives HTTP 404. -/
def trace404 : Nat → AttemptOutcome := fun _ =>
  AttemptOutcome.httpError ⟨404, none, "Not Found"⟩

/-- A trace whose first response is 429 with `Retry-After: 5` and whose
second succeeds. -/
def trace429then200 : Nat → AttemptOutcome := fun n =>
  if n = 0 then AttemptOutcome.httpError ⟨429, some 5, "rate limited"⟩
  else AttemptOutcome.ok "payload"

/-- One raw dict row of an API page, with every projected column optional
(`row.get` supplies the default when a field is missing). -/
structure RowDict where
  keyword : Option String
  position : Option ℚ
  prev_pos : Option ℚ
  volume : Option ℚ
  cpc : Option ℚ
  competition : Option ℚ
  url : Option String
  traffic : Option ℚ
  price : Option ℚ
deriving DecidableEq, Repr

/-- One element of a page's `rows` array: a dict (processed) or any other
JSON value (skipped by the `isinstance(row, dict)` check). -/
inductive RawRow where
  | dict (d : RowDict)
  | nonDict
deriving DecidableEq, Repr

/-- One page response as `fetch_domain_keywords` classifies it: either not a
dict carrying a `rows` key (unrecognized shape, printed and loop broken) or a
response whose `rows` value is a list. -/
inductive PageOutcome where
  | malformed
  | page (rows : List RawRow)
deriving DecidableEq, Repr

/-- The intermediate keyword dict the pagination loop appends for one raw
dict row, with the source's `row.get` defaults applied. -/
structure RawKeyword where
  keyword : String
  position : ℚ
  prev_pos : ℚ
  volume : ℚ
  cpc : ℚ
  competition : ℚ
  url : String
  traffic : ℚ
  price : ℚ
deriving DecidableEq, Repr

/-- Apply the `row.get(field, default)` defaults of the pagination loop to one
dict row. -/
def rowToRaw (d : RowDict) : RawKeyword :=
  ⟨d.keyword.getD "", d.position.getD 0, d.prev_pos.getD 0, d.volume.getD 0,
    d.cpc.getD 0, d.competition.getD 0, d.url.getD "", d.traffic.getD 0, d.price.getD 0⟩

/-- Process one page's rows: non-dict rows are skipped, dict rows become
intermediate keyword dicts. -/
def processRows (rows : List RawRow) : List RawKeyword :=
  rows.filterMap (fun r =>
    match r with
    | RawRow.dict d => some (rowToRaw d)
    | RawRow.nonDict => none)

/-- The second mapping of `fetch_domain_keywords` (the `keywords_data` loop):
`keyword`, `search_volume` from `volume`, `position`, `traffic`, `difficulty`
from `competition`, `cpc`. -/
def rawToRecord (k : RawKeyword) : KeywordRecord :=
  ⟨k.keyword, k.volume, k.position, k.traffic, k.competition, k.cpc⟩

/-- Result of one per-domain fetch: the produced keyword rows and the page
numbers requested, in order. -/
structure FetchResult where
  records : List KeywordRecord
  pagesRequested : List Nat
deriving DecidableEq, Repr

/-- The pagination loop of `fetch_domain_keywords`. `pages p` is the response
to the request for page `p`. The loop breaks on an unrecognized response
shape, on an empty `rows` list, or as soon as the incremented page number
exceeds 10. `fuel` (kept at `11 - page` from the canonical entry point) makes
the recursion structural; the ceiling check fires before fuel can run out. -/
def fetchLoop (pages : Nat → PageOutcome) :
    Nat → Nat → List RawKeyword → List Nat → List RawKeyword × List Nat
  | _, 0, acc, reqs => (acc, reqs)
  | page, fuel + 1, acc, reqs =>
    let reqs' := reqs ++ [page]
    match pages page with
    | PageOutcome.malformed => (acc, reqs')
    | PageOutcome.page rows =>
      if rows.isEmpty then (acc, reqs')
      else
        let acc' := acc ++ processRows rows
        if 10 < page + 1 then (acc', reqs')
        else fetchLoop pages (page + 1) fuel acc' reqs'

/-- `fetch_domain_keywords` from `src/moe_algorithm.py`, starting at page 1;
the accumulated intermediate dicts are mapped to keyword records at the end. -/
def fetch_domain_keywords (pages : Nat → PageOutcome) : FetchResult :=
  let r := fetchLoop pages 1 10 [] []
  ⟨r.1.map rawToRecord, r.2⟩

/-- One entry of the `domain_metrics` mapping: row count, mean position,
summed traffic and mean difficulty of one domain's rows. -/
structure DomainMetrics where
  total_keywords : Nat
  avg_position : Option ℚ
  total_traffic : ℚ
  avg_difficulty : Option ℚ
deriving DecidableEq, Repr

/-- One entry of the `keyword_overlap` mapping. -/
structure OverlapStats where
  overlap_count : Nat
  overlap_percentage : ℚ
deriving DecidableEq, Repr

/-- The errors an analysis can raise in this model: a Python `KeyError` from
accessing a missing DataFrame column (a frame built from an empty row list by
`pd.DataFrame([])` has no columns at all), and the Python `ZeroDivisionError`
a division would raise on a zero denominator. -/
inductive AnalysisError where
  | keyError (column : String)
  | divisionByZero
deriving DecidableEq, Repr

/-- pandas `Series.mean()`: undefined (NaN, here `none`) on an empty series,
the arithmetic mean otherwise. -/
def listMean (l : List ℚ) : Option ℚ :=
  if l.isEmpty then none else some (l.sum / (l.length : ℚ))

/-- Python dict assignment `d[k] = v`: replace the value at an existing key
in place, else append a new entry. -/
def dictInsert {α : Type} (k : String) (v : α) : List (String × α) → List (String × α)
  | [] => [(k, v)]
  | (k', v') :: rest => if k' = k then (k, v) :: rest else (k', v') :: dictInsert k v rest

/-- Python dict access `d[k]`. -/
def dictLookup {α : Type} (k : String) : List (String × α) → Option α
  | [] => none
  | (k', v) :: rest => if k' = k then some v else dictLookup k rest

/-- The keys of a dict, in insertion order. -/
def dictKeys {α : Type} (d : List (String × α)) : List String :=
  d.map Prod.fst

/-- `data['domain'] = domain`: tag every row of one fetched dataset. -/
def tagRows (domain : String) (rows : List KeywordRecord) : List (String × KeywordRecord) :=
  rows.map (fun r => (domain, r))

/-- `pd.concat(all_data)`: prospect rows first, then each competitor's rows
in input order. `fetched d` stands for the rows `fetch_domain_keywords`
produced for domain `d`. -/
def combinedRows (fetched : String → List KeywordRecord) (prospect_domain : String)
    (competitor_domains : List String) : List (String × KeywordRecord) :=
  tagRows prospect_domain (fetched prospect_domain) ++
    competitor_domains.flatMap (fun d => tagRows d (fetched d))

/-- `combined_df[combined_df['domain'] == domain]`: the rows of the combined
table tagged with `domain`. -/
def rowsOf (combined : List (String × KeywordRecord)) (domain : String) :
    List KeywordRecord :=
  (combined.filter (fun q => q.1 = domain)).map Prod.snd

/-- The `domain_metrics` entry computed for one domain. -/
def metricsFor (combined : List (String × KeywordRecord)) (domain : String) : DomainMetrics :=
  let rows := rowsOf combined domain
  ⟨rows.length, listMean (rows.map KeywordRecord.position),
    (rows.map KeywordRecord.traffic).sum, listMean (rows.map KeywordRecord.difficulty)⟩

/-- The `domain_metrics` dict-building loop over
`[prospect_domain] + competitor_domains`. -/
def domainMetricsDict (combined : List (String × KeywordRecord)) (domains : List String) :
    List (String × DomainMetrics) :=
  domains.foldl (fun acc d => dictInsert d (metricsFor combined d) acc) []

/-- `set(combined_df[combined_df['domain'] == domain]['keyword'])`, as a
deduplicated list. -/
def keywordSetOf (combined : List (String × KeywordRecord)) (domain : String) : List String :=
  ((rowsOf combined domain).map KeywordRecord.keyword).dedup

/-- The overlap statistics of one competitor: intersection size with the
prospect's keyword set and its percentage of that set. -/
def overlapStats (prospectKW : List String) (combined : List (String × KeywordRecord))
    (domain : String) : OverlapStats :=
  let compKW := keywordSetOf combined domain
  let overlap := prospectKW.filter (fun k => k ∈ compKW)
  ⟨overlap.length, (overlap.length : ℚ) / (prospectKW.length : ℚ) * 100⟩

/-- One iteration of the overlap loop. The guard models the Python division
operator itself: `len(overlap) / len(prospect_keywords)` would raise
`ZeroDivisionError` on a zero denominator. Inside
`analyze_market_opportunity` this branch is unreachable — an empty prospect
fetch already raised `KeyError` at the `prospect_data['keyword']` column
access before the loop, and a non-empty prospect frame has a non-empty
keyword set (proved with the C3 theorems below). -/
def overlapFor (prospectKW : List String) (combined : List (String × KeywordRecord))
    (domain : String) : Except AnalysisError OverlapStats :=
  if prospectKW.length = 0 then Except.error AnalysisError.divisionByZero
  else Except.ok (overlapStats prospectKW combined domain)

/-- The `keyword_overlap` dict-building loop over the competitor domains. -/
def overlapLoop (prospectKW : List String) (combined : List (String × KeywordRecord)) :
    List String → List (String × OverlapStats) →
    Except AnalysisError (List (String × OverlapStats))
  | [], acc => Except.ok acc
  | d :: rest, acc =>
    match overlapFor prospectKW combined d with
    | Except.error e => Except.error e
    | Except.ok st => overlapLoop prospectKW combined rest (dictInsert d st acc)

/-- The combined rows together with their opportunity scores
(`combined_df['opportunity_score']`). -/
noncomputable def scoredRows (combined : List (String × KeywordRecord)) :
    List (String × KeywordRecord × ℝ) :=
  combined.map (fun q => (q.1, q.2, calculate_opportunity_score q.2))

/-- pandas `Series.mean()` over real values (undefined on empty is `none`). -/
noncomputable def listMeanR (l : List ℝ) : Option ℝ :=
  if l.isEmpty then none else some (l.sum / (l.length : ℝ))

/-- pandas `nlargest(n, 'opportunity_score')`: the n highest-scored rows,
earlier rows kept first among ties. -/
noncomputable def nlargestByScore (n : Nat) (rows : List (String × KeywordRecord × ℝ)) :
    List (String × KeywordRecord × ℝ) :=
  (rows.mergeSort (fun a b => b.2.2 ≤ a.2.2)).take n

/-- The `summary` block of an analysis result. -/
structure AnalysisSummary where
  total_keywords : Nat
  avg_opportunity_score : Option ℝ
  high_opportunity_keywords : Nat

/-- The analysis result `analyze_market_opportunity` returns. The `timestamp`
field of the source (wall-clock creation time) is outside the model. -/
structure AnalysisResult where
  prospect_domain : String
  competitor_domains : List String
  summary : AnalysisSummary
  domain_metrics : List (String × DomainMetrics)
  top_opportunities : List (String × KeywordRecord × ℝ)
  keyword_overlap : List (String × OverlapStats)
  competitive_gaps : List (String × KeywordRecord × ℝ)

/-- `analyze_market_opportunity` from `src/moe_algorithm.py`, over the
fetched per-domain datasets. The progress callback (a pure side effect) is
outside the model. A fetch of zero rows returns `pd.DataFrame([])`, a frame
with no columns (the later `data['domain'] = domain` adds only `domain`), so
the failure points of the source appear here in execution order:

* when every fetched frame is empty, the concatenated frame has no `keyword`
  column and `combined_df['keyword'].unique()` in the summary block raises
  `KeyError` — the first guard (all frames empty is exactly `combined = []`);
* otherwise, when the prospect's own fetch is empty,
  `set(prospect_data['keyword'])` just before the overlap loop raises
  `KeyError` — the second guard;
* otherwise the prospect frame is non-empty, its keyword set is non-empty,
  and the overlap divisions have non-zero denominators, so the
  `ZeroDivisionError` path of `overlapFor` is unreachable and the analysis
  succeeds.

Everything computed between those points is pure, so the model assembles the
result record after running the overlap loop. -/
noncomputable def analyze_market_opportunity (fetched : String → List KeywordRecord)
    (prospect_domain : String) (competitor_domains : List String) :
    Except AnalysisError AnalysisResult :=
  let combined := combinedRows fetched prospect_domain competitor_domains
  let scored := scoredRows combined
  let prospectKW := ((fetched prospect_domain).map KeywordRecord.keyword).dedup
  let gapKW := ((competitor_domains.flatMap (fun d => keywordSetOf combined d)).dedup).filter
    (fun k => ¬ (k ∈ prospectKW))
  let gapRows := scored.filter (fun q => q.2.1.keyword ∈ gapKW ∧ q.1 ∈ competitor_domains)
  if combined = [] then Except.error (AnalysisError.keyError "keyword")
  else if fetched prospect_domain = [] then Except.error (AnalysisError.keyError "keyword")
  else
  match overlapLoop prospectKW combined competitor_domains [] with
  | Except.error e => Except.error e
  | Except.ok overlaps =>
    Except.ok
      { prospect_domain := prospect_domain
        competitor_domains := competitor_domains
        summary :=
          ⟨((combined.map (fun q => q.2.keyword)).dedup).length,
            listMeanR (scored.map (fun q => q.2.2)),
            (scored.filter (fun q => (0.7 : ℝ) < q.2.2)).length⟩
        domain_metrics := domainMetricsDict combined (prospect_domain :: competitor_domains)
        top_opportunities := nlargestByScore 10 scored
        keyword_overlap := overlaps
        competitive_gaps := nlargestByScore 10 gapRows }

/-- The prospect's keyword-text set, as the specification reads it. -/
def prospectKeywordSet (fetched : String → List KeywordRecord) (prospect_domain : String) :
    Finset String :=
  ((fetched prospect_domain).map KeywordRecord.keyword).toFinset

/-- The keyword-text set of the combined rows tagged with one domain, as the
specification reads it. -/
def domainKeywordSet (fetched : String → List KeywordRecord) (prospect_domain : String)
    (competitor_domains : List String) (domain : String) : Finset String :=
  ((rowsOf (combinedRows fetched prospect_domain competitor_domains) domain).map
    KeywordRecord.keyword).toFinset

/-- A keyword record carrying just a keyword text. -/
def kwRecord (kw : String) : KeywordRecord := ⟨kw, 0, 0, 0, 0, 0⟩

/-- The fetched datasets of the specification's overlap example: prospect
keywords a, b, c; competitor keywords b, c, d. -/
def overlapExampleFetched : String → List KeywordRecord := fun d =>
  if d = "prospect" then [kwRecord "a", kwRecord "b", kwRecord "c"]
  else if d = "competitor" then [kwRecord "b", kwRecord "c", kwRecord "d"]
  else []

/-- A fetched-data function with one prospect row and nothing for any other
domain. -/
def zeroRowFetched : String → List KeywordRecord := fun d =>
  if d = "prospect" then [kwRecord "a"] else []

/-- A fetched-data function whose prospect fetch is empty while the
competitor fetch has a row. -/
def emptyProspectFetched : String → List KeywordRecord := fun d =>
  if d = "competitor" then [kwRecord "b"] else []

end MOE

namespace MOE

theorem calculate_opportunity_score_eq (row : KeywordRecord) :
    calculate_opportunity_score row =
      Real.log (1 + (row.search_volume : ℝ)) / 10 * 0.3 +
        (100 - (row.position : ℝ)) / 100 * 0.25 +
        (100 - (row.difficulty : ℝ)) / 100 * 0.25 +
        min ((row.cpc : ℝ) / 5) 1 * 0.2 := rfl

theorem log_101_gt : (23 / 5 : ℝ) < Real.log 101 := by
  rw [Real.lt_log_iff_exp_lt (by norm_num : (0 : ℝ) < 101)]
  have h5 : Real.exp (23 / 5 : ℝ) ^ (5 : ℕ) = Real.exp 23 := by
    rw [← Real.exp_nat_mul]; norm_num
  have h23 : Real.exp 23 = Real.exp 1 ^ (23 : ℕ) := by
    rw [← Real.exp_nat_mul]; norm_num
  have hlt : Real.exp 23 < 101 ^ (5 : ℕ) := by
    calc Real.exp 23 = Real.exp 1 ^ (23 : ℕ) := h23
      _ < 2.7182818286 ^ (23 : ℕ) :=
        pow_lt_pow_left₀ Real.exp_one_lt_d9 (Real.exp_pos 1).le (by norm_num)
      _ < 101 ^ (5 : ℕ) := by norm_num
  exact lt_of_pow_lt_pow_left₀ 5 (by norm_num : (0 : ℝ) ≤ 101) (h5 ▸ hlt)

theorem log_101_lt : Real.log 101 < (47 / 10 : ℝ) := by
  rw [Real.log_lt_iff_lt_exp (by norm_num : (0 : ℝ) < 101)]
  have h10 : Real.exp (47 / 10 : ℝ) ^ (10 : ℕ) = Real.exp 47 := by
    rw [← Real.exp_nat_mul]; norm_num
  have h47 : Real.exp 47 = Real.exp 1 ^ (47 : ℕ) := by
    rw [← Real.exp_nat_mul]; norm_num
  have hgt : (101 : ℝ) ^ (10 : ℕ) < Real.exp 47 := by
    calc (101 : ℝ) ^ (10 : ℕ) < 2.7182818283 ^ (47 : ℕ) := by norm_num
      _ < Real.exp 1 ^ (47 : ℕ) :=
        pow_lt_pow_left₀ Real.exp_one_gt_d9 (by norm_num) (by norm_num)
      _ = Real.exp 47 := h47.symm
  exact lt_of_pow_lt_pow_left₀ 10 (Real.exp_pos _).le (by rw [h10]; exact hgt)

theorem score_example_eq :
    calculate_opportunity_score exampleRecord =
      Real.log 101 * (3 / 100) + 101 / 200 := by
  rw [calculate_opportunity_score_eq]
  have hmin : min (((2 : ℚ) : ℝ) / 5) 1 = 2 / 5 := by
    rw [min_eq_left (by norm_num)]; norm_num
  show Real.log (1 + ((100 : ℚ) : ℝ)) / 10 * 0.3 +
      (100 - ((10 : ℚ) : ℝ)) / 100 * 0.25 +
      (100 - ((20 : ℚ) : ℝ)) / 100 * 0.25 +
      min (((2 : ℚ) : ℝ) / 5) 1 * 0.2 = Real.log 101 * (3 / 100) + 101 / 200
  rw [hmin]
  norm_num
  ring

/-- C2 (amended): for every keyword record the opportunity score equals the
specification's weighted formula
`0.3*(ln(1+volume)/10) + 0.25*((100-position)/100) + 0.25*((100-difficulty)/100)
+ 0.2*min(cpc/5, 1)`, and on the worked example (volume 100, position 10,
difficulty 20, cpc 2) the score is approximately 0.6435 — not 0.6635 as the
specification's example arithmetic states. -/
theorem C2_score_formula :
    (∀ row : KeywordRecord, calculate_opportunity_score row =
      score_spec row.search_volume row.position row.difficulty row.cpc) ∧
    |calculate_opportunity_score exampleRecord - 0.6435| < 1 / 100 := by
  constructor
  · intro row
    rw [calculate_opportunity_score_eq]
    unfold score_spec
    ring
  · rw [score_example_eq, abs_lt]
    constructor <;> nlinarith [log_101_gt, log_101_lt]

/-- C2 counterexample: on the specification's worked example the claimed value
0.6635 is off by about 0.02 — the score is not within 0.01 of 0.6635. -/
theorem C2_counterexample :
    ¬ |calculate_opportunity_score exampleRecord - 0.6635| < 1 / 100 := by
  intro h
  rw [score_example_eq, abs_lt] at h
  nlinarith [log_101_lt, h.1]

/-- C7: holding the other fields fixed, the opportunity score is non-decreasing
in `search_volume` (on non-negative volumes), non-increasing in `position`,
non-increasing in `difficulty`, non-decreasing in `cpc`, and constant in `cpc`
from 5 upward. -/
theorem C7_score_monotonicity :
    (∀ (r : KeywordRecord) (v₁ v₂ : ℚ), 0 ≤ v₁ → v₁ ≤ v₂ →
      calculate_opportunity_score { r with search_volume := v₁ } ≤
        calculate_opportunity_score { r with search_volume := v₂ }) ∧
    (∀ (r : KeywordRecord) (p₁ p₂ : ℚ), p₁ ≤ p₂ →
      calculate_opportunity_score { r with position := p₂ } ≤
        calculate_opportunity_score { r with position := p₁ }) ∧
    (∀ (r : KeywordRecord) (d₁ d₂ : ℚ), d₁ ≤ d₂ →
      calculate_opportunity_score { r with difficulty := d₂ } ≤
        calculate_opportunity_score { r with difficulty := d₁ }) ∧
    (∀ (r : KeywordRecord) (c₁ c₂ : ℚ), c₁ ≤ c₂ →
      calculate_opportunity_score { r with cpc := c₁ } ≤
        calculate_opportunity_score { r with cpc := c₂ }) ∧
    (∀ (r : KeywordRecord) (c : ℚ), 5 ≤ c →
      calculate_opportunity_score { r with cpc := c } =
        calculate_opportunity_score { r with cpc := 5 }) := by
  refine ⟨?_, ?_, ?_, ?_, ?_⟩
  · intro r v₁ v₂ h0 h12
    simp only [calculate_opportunity_score_eq]
    have hv0 : (0 : ℝ) ≤ (v₁ : ℝ) := by exact_mod_cast h0
    have hv : ((v₁ : ℚ) : ℝ) ≤ ((v₂ : ℚ) : ℝ) := by exact_mod_cast h12
    have hlog : Real.log (1 + (v₁ : ℝ)) ≤ Real.log (1 + (v₂ : ℝ)) :=
      Real.log_le_log (by linarith) (by linarith)
    linarith
  · intro r p₁ p₂ h
    simp only [calculate_opportunity_score_eq]
    have hp : ((p₁ : ℚ) : ℝ) ≤ ((p₂ : ℚ) : ℝ) := by exact_mod_cast h
    linarith
  · intro r d₁ d₂ h
    simp only [calculate_opportunity_score_eq]
    have hd : ((d₁ : ℚ) : ℝ) ≤ ((d₂ : ℚ) : ℝ) := by exact_mod_cast h
    linarith
  · intro r c₁ c₂ h
    simp only [calculate_opportunity_score_eq]
    have hc : ((c₁ : ℚ) : ℝ) ≤ ((c₂ : ℚ) : ℝ) := by exact_mod_cast h
    have hmin : min ((c₁ : ℝ) / 5) 1 ≤ min ((c₂ : ℝ) / 5) 1 :=
      min_le_min (by linarith) le_rfl
    linarith
  · intro r c h
    simp only [calculate_opportunity_score_eq]
    have hc : (5 : ℝ) ≤ (c : ℝ) := by exact_mod_cast h
    have h1 : min ((c : ℝ) / 5) 1 = 1 := min_eq_right (by linarith)
    have h2 : min (((5 : ℚ) : ℝ) / 5) 1 = 1 := by norm_num
    rw [h1, h2]

/-- C7 witness: each monotonicity part applied at concrete inputs. -/
theorem C7_witness :
    ((0 : ℚ) ≤ 0 ∧ (0 : ℚ) ≤ 1 ∧
      calculate_opportunity_score { exampleRecord with search_volume := 0 } ≤
        calculate_opportunity_score { exampleRecord with search_volume := 1 }) ∧
    ((1 : ℚ) ≤ 2 ∧
      calculate_opportunity_score { exampleRecord with position := 2 } ≤
        calculate_opportunity_score { exampleRecord with position := 1 }) ∧
    ((1 : ℚ) ≤ 2 ∧
      calculate_opportunity_score { exampleRecord with difficulty := 2 } ≤
        calculate_opportunity_score { exampleRecord with difficulty := 1 }) ∧
    ((1 : ℚ) ≤ 2 ∧
      calculate_opportunity_score { exampleRecord with cpc := 1 } ≤
        calculate_opportunity_score { exampleRecord with cpc := 2 }) ∧
    ((5 : ℚ) ≤ 6 ∧
      calculate_opportunity_score { exampleRecord with cpc := 6 } =
        calculate_opportunity_score { exampleRecord with cpc := 5 }) :=
  ⟨⟨by norm_num, by norm_num,
      C7_score_monotonicity.1 exampleRecord 0 1 (by norm_num) (by norm_num)⟩,
   ⟨by norm_num, C7_score_monotonicity.2.1 exampleRecord 1 2 (by norm_num)⟩,
   ⟨by norm_num, C7_score_monotonicity.2.2.1 exampleRecord 1 2 (by norm_num)⟩,
   ⟨by norm_num, C7_score_monotonicity.2.2.2.1 exampleRecord 1 2 (by norm_num)⟩,
   ⟨by norm_num, C7_score_monotonicity.2.2.2.2 exampleRecord 6 (by norm_num)⟩⟩

theorem runAttempts_calls_shape (trace : Nat → AttemptOutcome) (url : String)
    (headers params : List (String × String)) (retries delay : Nat) :
    ∀ (remaining attempt : Nat) (response : Option ErrResponse)
      (calls : List RequestCall) (sleeps : List Nat),
      ∃ n, n ≤ remaining ∧
        (runAttempts trace url headers params retries delay attempt remaining
            response calls sleeps).calls =
          calls ++ List.replicate n (⟨url, headers, params, none⟩ : RequestCall) := by
  intro remaining
  induction remaining with
  | zero =>
    intro attempt response calls sleeps
    exact ⟨0, le_refl 0, by simp [runAttempts]⟩
  | succ m ih =>
    intro attempt response calls sleeps
    cases htr : trace attempt with
    | ok payload =>
      refine ⟨1, by omega, ?_⟩
      simp [runAttempts, htr]
    | httpError resp =>
      by_cases h429 : resp.status = 429
      · obtain ⟨n, hn, heq⟩ := ih (attempt + 1) (some resp)
          (calls ++ [(⟨url, headers, params, none⟩ : RequestCall)])
          (sleeps ++ [resp.retryAfter.getD 60])
        refine ⟨n + 1, by omega, ?_⟩
        simp only [runAttempts, htr]
        rw [if_pos h429, heq]
        simp [List.replicate_succ]
      · by_cases hlast : attempt = retries - 1
        · refine ⟨1, by omega, ?_⟩
          simp only [runAttempts, htr]
          rw [if_neg h429, if_pos hlast]
          simp
        · obtain ⟨n, hn, heq⟩ := ih (attempt + 1) (some resp)
            (calls ++ [(⟨url, headers, params, none⟩ : RequestCall)])
            (sleeps ++ [delay * 2 ^ attempt])
          refine ⟨n + 1, by omega, ?_⟩
          simp only [runAttempts, htr]
          rw [if_neg h429, if_neg hlast, heq]
          simp [List.replicate_succ]
    | netError msg =>
      cases response with
      | some r =>
        by_cases h429 : r.status = 429
        · obtain ⟨n, hn, heq⟩ := ih (attempt + 1) (some r)
            (calls ++ [(⟨url, headers, params, none⟩ : RequestCall)])
            (sleeps ++ [r.retryAfter.getD 60])
          refine ⟨n + 1, by omega, ?_⟩
          simp only [runAttempts, htr]
          rw [if_pos h429, heq]
          simp [List.replicate_succ]
        · by_cases hlast : attempt = retries - 1
          · refine ⟨1, by omega, ?_⟩
            simp only [runAttempts, htr]
            rw [if_neg h429, if_pos hlast]
            simp
          · obtain ⟨n, hn, heq⟩ := ih (attempt + 1) (some r)
              (calls ++ [(⟨url, headers, params, none⟩ : RequestCall)])
              (sleeps ++ [delay * 2 ^ attempt])
            refine ⟨n + 1, by omega, ?_⟩
            simp only [runAttempts, htr]
            rw [if_neg h429, if_neg hlast, heq]
            simp [List.replicate_succ]
      | none =>
        by_cases hlast : attempt = retries - 1
        · refine ⟨1, by omega, ?_⟩
          simp only [runAttempts, htr]
          rw [if_pos hlast]
          simp
        · obtain ⟨n, hn, heq⟩ := ih (attempt + 1) none
            (calls ++ [(⟨url, headers, params, none⟩ : RequestCall)])
            (sleeps ++ [delay * 2 ^ attempt])
          refine ⟨n + 1, by omega, ?_⟩
          simp only [runAttempts, htr]
          rw [if_neg hlast, heq]
          simp [List.replicate_succ]

theorem runAttempts_all429 (trace : Nat → AttemptOutcome) (url : String)
    (headers params : List (String × String)) (retries delay : Nat) :
    ∀ (remaining attempt : Nat) (response : Option ErrResponse)
      (calls : List RequestCall) (sleeps : List Nat),
      (∀ i, i < remaining → is429 (trace (attempt + i)) = true) →
      runAttempts trace url headers params retries delay attempt remaining
          response calls sleeps =
        ⟨Except.ok none,
          calls ++ List.replicate remaining (⟨url, headers, params, none⟩ : RequestCall),
          sleeps ++ sleepsFor429 trace attempt remaining⟩ := by
  intro remaining
  induction remaining with
  | zero =>
    intro attempt response calls sleeps _
    simp [runAttempts, sleepsFor429]
  | succ m ih =>
    intro attempt response calls sleeps h
    have h0 := h 0 (Nat.succ_pos m)
    rw [Nat.add_zero] at h0
    cases htr : trace attempt with
    | ok payload => rw [htr] at h0; simp [is429] at h0
    | netError msg => rw [htr] at h0; simp [is429] at h0
    | httpError resp =>
      have h429 : resp.status = 429 := by
        rw [htr] at h0; simpa [is429] using h0
      simp only [runAttempts, htr]
      rw [if_pos h429]
      rw [ih (attempt + 1) (some resp)
        (calls ++ [(⟨url, headers, params, none⟩ : RequestCall)])
        (sleeps ++ [resp.retryAfter.getD 60]) ?_]
      · simp [sleepsFor429, htr, retryAfterOf, List.replicate_succ]
      · intro i hi
        have hstep := h (i + 1) (by omega)
        have harith : attempt + (i + 1) = attempt + 1 + i := by omega
        rw [harith] at hstep
        exact hstep

theorem runAttempts_429_prefix_ok (trace : Nat → AttemptOutcome) (url : String)
    (headers params : List (String × String)) (retries delay : Nat) (payload : String) :
    ∀ (k attempt remaining : Nat) (response : Option ErrResponse)
      (calls : List RequestCall) (sleeps : List Nat),
      k < remaining →
      (∀ i, i < k → is429 (trace (attempt + i)) = true) →
      trace (attempt + k) = AttemptOutcome.ok payload →
      runAttempts trace url headers params retries delay attempt remaining
          response calls sleeps =
        ⟨Except.ok (some payload),
          calls ++ List.replicate (k + 1) (⟨url, headers, params, none⟩ : RequestCall),
          sleeps ++ sleepsFor429 trace attempt k⟩ := by
  intro k
  induction k with
  | zero =>
    intro attempt remaining response calls sleeps hk h429 hok
    cases remaining with
    | zero => omega
    | succ n =>
      rw [Nat.add_zero] at hok
      simp only [runAttempts, hok]
      simp [sleepsFor429]
  | succ m ih =>
    intro attempt remaining response calls sleeps hk h429 hok
    cases remaining with
    | zero => omega
    | succ n =>
      have h0 := h429 0 (Nat.succ_pos m)
      rw [Nat.add_zero] at h0
      cases htr : trace attempt with
      | ok p => rw [htr] at h0; simp [is429] at h0
      | netError msg => rw [htr] at h0; simp [is429] at h0
      | httpError resp =>
        have hs : resp.status = 429 := by
          rw [htr] at h0; simpa [is429] using h0
        simp only [runAttempts, htr]
        rw [if_pos hs]
        rw [ih (attempt + 1) n (some resp)
          (calls ++ [(⟨url, headers, params, none⟩ : RequestCall)])
          (sleeps ++ [resp.retryAfter.getD 60])
          (by omega) ?_ ?_]
        · simp [sleepsFor429, htr, retryAfterOf, List.replicate_succ]
        · intro i hi
          have hstep := h429 (i + 1) (by omega)
          have harith : attempt + (i + 1) = attempt + 1 + i := by omega
          rw [harith] at hstep
          exact hstep
        · have harith : attempt + 1 + m = attempt + (m + 1) := by omega
          rw [harith]
          exact hok

theorem runAttempts_allHttpErr (trace : Nat → AttemptOutcome) (url : String)
    (headers params : List (String × String)) (retries delay : Nat)
    (resp : Nat → ErrResponse) :
    ∀ (remaining attempt : Nat) (response : Option ErrResponse)
      (calls : List RequestCall) (sleeps : List Nat),
      attempt + remaining = retries → 0 < remaining →
      (∀ i, attempt ≤ i → i < retries →
        trace i = AttemptOutcome.httpError (resp i) ∧ (resp i).status ≠ 429) →
      runAttempts trace url headers params retries delay attempt remaining
          response calls sleeps =
        ⟨Except.error (failureMessage retries (some (resp (retries - 1))) ""),
          calls ++ List.replicate remaining (⟨url, headers, params, none⟩ : RequestCall),
          sleeps ++ backoffSleeps delay attempt (remaining - 1)⟩ := by
  intro remaining
  induction remaining with
  | zero =>
    intro attempt response calls sleeps _ hpos _
    omega
  | succ m ih =>
    intro attempt response calls sleeps hsum _ h
    obtain ⟨htr, h429⟩ := h attempt (le_refl attempt) (by omega)
    simp only [runAttempts, htr]
    rw [if_neg h429]
    by_cases hm : m = 0
    · have hlast : attempt = retries - 1 := by omega
      rw [if_pos hlast, ← hlast]
      subst hm
      simp [backoffSleeps]
    · have hlast : ¬ (attempt = retries - 1) := by omega
      rw [if_neg hlast]
      rw [ih (attempt + 1) (some (resp attempt))
        (calls ++ [(⟨url, headers, params, none⟩ : RequestCall)])
        (sleeps ++ [delay * 2 ^ attempt])
        (by omega) (by omega) (fun i hi hir => h i (by omega) hir)]
      obtain ⟨p, rfl⟩ : ∃ p, m = p + 1 := ⟨m - 1, by omega⟩
      simp [backoffSleeps, List.replicate_succ]

/-- C10: when every one of the 3 attempts receives an HTTP 429 response, the
wrapper sleeps the parsed `Retry-After` of each response (default 60 when the
header is absent, folded into `retryAfterOf`), issues exactly 3 requests, and
returns `None` (`Except.ok none`): it neither raises nor returns a payload. -/
theorem C10_exhausted_429_returns_none (trace : Nat → AttemptOutcome)
    (url : String) (headers params : List (String × String))
    (h : ∀ i, i < 3 → is429 (trace i) = true) :
    make_api_request trace url headers params 3 1 =
      ⟨Except.ok none, List.replicate 3 ⟨url, headers, params, none⟩,
        [retryAfterOf (trace 0), retryAfterOf (trace 1), retryAfterOf (trace 2)]⟩ := by
  unfold make_api_request
  rw [runAttempts_all429 trace url headers params 3 1 3 0 none [] []
    (by intro i hi; simpa using h i hi)]
  simp [sleepsFor429]

/-- C10 witness: a concrete all-429 trace with `Retry-After: 5`. -/
theorem C10_witness :
    (∀ i, i < 3 → is429 (trace429x3 i) = true) ∧
    make_api_request trace429x3 "https://api" [] [] 3 1 =
      ⟨Except.ok none, List.replicate 3 ⟨"https://api", [], [], none⟩, [5, 5, 5]⟩ := by
  refine ⟨by decide, ?_⟩
  have h := C10_exhausted_429_returns_none trace429x3 "https://api" [] [] (by decide)
  simpa [trace429x3, retryAfterOf] using h

/-- C1 (amended): on an HTTP 429 response the wrapper reads `Retry-After`
(default 60 when absent), sleeps that long and retries the same request — but
the retry consumes one of the `retries` attempts: the wrapper never issues
more than `retries` requests; k consecutive 429s followed by a success within
the budget yield exactly k+1 requests and the k `Retry-After` sleeps; and
`retries` consecutive 429s exhaust the budget and return `None` without a
further retry. -/
theorem C1_429_retry_consumes_budget :
    (∀ (trace : Nat → AttemptOutcome) (url : String)
        (headers params : List (String × String)) (retries delay : Nat),
      (make_api_request trace url headers params retries delay).calls.length ≤ retries) ∧
    (∀ (trace : Nat → AttemptOutcome) (url : String)
        (headers params : List (String × String)) (retries delay k : Nat) (payload : String),
      k < retries →
      (∀ i, i < k → is429 (trace i) = true) →
      trace k = AttemptOutcome.ok payload →
      make_api_request trace url headers params retries delay =
        ⟨Except.ok (some payload),
          List.replicate (k + 1) ⟨url, headers, params, none⟩,
          sleepsFor429 trace 0 k⟩) ∧
    (∀ (trace : Nat → AttemptOutcome) (url : String)
        (headers params : List (String × String)) (retries delay : Nat),
      (∀ i, i < retries → is429 (trace i) = true) →
      make_api_request trace url headers params retries delay =
        ⟨Except.ok none, List.replicate retries ⟨url, headers, params, none⟩,
          sleepsFor429 trace 0 retries⟩) := by
  refine ⟨?_, ?_, ?_⟩
  · intro trace url headers params retries delay
    obtain ⟨n, hn, heq⟩ := runAttempts_calls_shape trace url headers params retries delay
      retries 0 none [] []
    unfold make_api_request
    rw [heq]
    simp [hn]
  · intro trace url headers params retries delay k payload hk h429 hok
    unfold make_api_request
    rw [runAttempts_429_prefix_ok trace url headers params retries delay payload k 0 retries
      none [] [] hk (by intro i hi; simpa using h429 i hi) (by simpa using hok)]
    simp
  · intro trace url headers params retries delay h
    unfold make_api_request
    rw [runAttempts_all429 trace url headers params retries delay retries 0 none [] []
      (by intro i hi; simpa using h i hi)]
    simp

/-- C1 witness: one 429 with `Retry-After: 5` and then a success — two
requests, one sleep of 5 seconds, payload returned. -/
theorem C1_witness :
    (1 < 3 ∧ (∀ i, i < 1 → is429 (trace429then200 i) = true) ∧
      trace429then200 1 = AttemptOutcome.ok "payload") ∧
    make_api_request trace429then200 "https://api" [] [] 3 1 =
      ⟨Except.ok (some "payload"), List.replicate 2 ⟨"https://api", [], [], none⟩, [5]⟩ := by
  refine ⟨⟨by norm_num, by decide, by decide⟩, ?_⟩
  have h := C1_429_retry_consumes_budget.2.1 trace429then200 "https://api" [] [] 3 1 1
    "payload" (by norm_num) (by decide) (by decide)
  simpa [sleepsFor429, trace429then200, retryAfterOf] using h

/-- C1 counterexample: three 429 responses followed by a request that would
succeed. The claim says 429 retries do not count against the 3-attempt
budget, so the success should be reached; the code stops after 3 requests and
returns `None`. -/
theorem C1_counterexample :
    (make_api_request trace429x3 "https://api" [] [] 3 1).calls.length = 3 ∧
    (make_api_request trace429x3 "https://api" [] [] 3 1).result = Except.ok none ∧
    (make_api_request trace429x3 "https://api" [] [] 3 1).result ≠
      Except.ok (some "payload") := by
  have hres : (make_api_request trace429x3 "https://api" [] [] 3 1).result =
      Except.ok none := rfl
  refine ⟨rfl, hres, ?_⟩
  rw [hres]
  intro h
  exact Option.noConfusion (Except.ok.inj h)

/-- C5 (amended): a request failing with a non-429 HTTP status (such as 404)
IS retried: every non-final attempt sleeps `delay * 2 ^ attempt` and reissues
the request, and only after the final attempt does the wrapper raise — with a
budget of `retries` attempts it issues `retries` requests and sleeps
`retries - 1` backoff delays. -/
theorem C5_non429_errors_are_retried (trace : Nat → AttemptOutcome)
    (url : String) (headers params : List (String × String))
    (retries delay : Nat) (resp : Nat → ErrResponse)
    (hpos : 0 < retries)
    (h : ∀ i, i < retries →
      trace i = AttemptOutcome.httpError (resp i) ∧ (resp i).status ≠ 429) :
    make_api_request trace url headers params retries delay =
      ⟨Except.error (failureMessage retries (some (resp (retries - 1))) ""),
        List.replicate retries ⟨url, headers, params, none⟩,
        backoffSleeps delay 0 (retries - 1)⟩ := by
  unfold make_api_request
  rw [runAttempts_allHttpErr trace url headers params retries delay resp retries 0
    none [] [] (by omega) hpos (by intro i _ hir; exact h i hir)]
  simp

/-- C5 witness: three 404 responses — three requests, backoff sleeps of 1s
and 2s, and a raised failure carrying the last status. -/
theorem C5_witness :
    (0 < 3 ∧ (∀ i, i < 3 →
      trace404 i = AttemptOutcome.httpError ⟨404, none, "Not Found"⟩ ∧
        (⟨404, none, "Not Found"⟩ : ErrResponse).status ≠ 429)) ∧
    make_api_request trace404 "https://api" [] [] 3 1 =
      ⟨Except.error (failureMessage 3 (some ⟨404, none, "Not Found"⟩) ""),
        List.replicate 3 ⟨"https://api", [], [], none⟩, [1, 2]⟩ := by
  refine ⟨⟨by norm_num, by decide⟩, ?_⟩
  have h := C5_non429_errors_are_retried trace404 "https://api" [] [] 3 1
    (fun _ => ⟨404, none, "Not Found"⟩) (by norm_num) (by decide)
  simpa [backoffSleeps] using h

/-- C5 counterexample: with every request answered 404 the wrapper issues 3
requests and sleeps twice (1s then 2s) before failing — it does not fail
without further attempts and without sleeps as the claim states. -/
theorem C5_counterexample :
    (make_api_request trace404 "https://api" [] [] 3 1).calls.length = 3 ∧
    (make_api_request trace404 "https://api" [] [] 3 1).sleeps = [1, 2] ∧
    ¬ ((make_api_request trace404 "https://api" [] [] 3 1).calls.length = 1 ∧
        (make_api_request trace404 "https://api" [] [] 3 1).sleeps = []) := by
  refine ⟨rfl, rfl, ?_⟩
  intro hcl
  have h3 : (make_api_request trace404 "https://api" [] [] 3 1).calls.length = 3 := rfl
  omega

/-- C6 (amended): every outbound call issued by `make_api_request` carries no
timeout argument at all (`timeout = none`) — the `requests.get` call site in
`src/moe_algorithm.py` passes only `url`, `headers` and `params`. -/
theorem C6_no_timeout (trace : Nat → AttemptOutcome) (url : String)
    (headers params : List (String × String)) (retries delay : Nat) :
    ∀ c ∈ (make_api_request trace url headers params retries delay).calls,
      c.timeout = none := by
  obtain ⟨n, _, heq⟩ := runAttempts_calls_shape trace url headers params retries delay
    retries 0 none [] []
  unfold make_api_request
  rw [heq]
  intro c hc
  rw [List.nil_append] at hc
  rw [(List.eq_of_mem_replicate hc)]

/-- C6 witness: a concrete issued call of a concrete run, with its recorded
timeout. -/
theorem C6_witness :
    (⟨"https://api", [], [], none⟩ : RequestCall) ∈
        (make_api_request trace404 "https://api" [] [] 3 1).calls ∧
    RequestCall.timeout ⟨"https://api", [], [], none⟩ = none :=
  ⟨by decide, C6_no_timeout trace404 "https://api" [] [] 3 1 _ (by decide)⟩

/-- C6 counterexample: in a concrete run no issued call carries
`timeout = some 10`; the recorded timeouts are all `none`. -/
theorem C6_counterexample :
    (make_api_request trace404 "https://api" [] [] 3 1).calls.map RequestCall.timeout =
      [none, none, none] ∧
    ¬ (∀ c ∈ (make_api_request trace404 "https://api" [] [] 3 1).calls,
        c.timeout = some 10) := by
  refine ⟨rfl, ?_⟩
  intro h
  have h10 := h ⟨"https://api", [], [], none⟩ (by decide)
  simp at h10

theorem fetchLoop_reqs_le (pages : Nat → PageOutcome) :
    ∀ (fuel page : Nat) (acc : List RawKeyword) (reqs : List Nat),
      (fetchLoop pages page fuel acc reqs).2.length ≤ reqs.length + fuel := by
  intro fuel
  induction fuel with
  | zero => intro page acc reqs; simp [fetchLoop]
  | succ m ih =>
    intro page acc reqs
    cases hp : pages page with
    | malformed =>
      simp [fetchLoop, hp]
    | page rows =>
      by_cases he : rows.isEmpty
      · simp only [fetchLoop, hp]
        rw [if_pos he]
        simp
      · simp only [fetchLoop, hp]
        rw [if_neg he]
        by_cases hc : 10 < page + 1
        · rw [if_pos hc]; simp
        · rw [if_neg hc]
          have h := ih (page + 1) (acc ++ processRows rows) (reqs ++ [page])
          simp only [List.length_append, List.length_cons, List.length_nil] at h ⊢
          omega

theorem fetchLoop_records_le (pages : Nat → PageOutcome)
    (hrows : ∀ p rows, pages p = PageOutcome.page rows → rows.length ≤ 1000) :
    ∀ (fuel page : Nat) (acc : List RawKeyword) (reqs : List Nat),
      (fetchLoop pages page fuel acc reqs).1.length ≤ acc.length + 1000 * fuel := by
  intro fuel
  induction fuel with
  | zero => intro page acc reqs; simp [fetchLoop]
  | succ m ih =>
    intro page acc reqs
    cases hp : pages page with
    | malformed =>
      simp [fetchLoop, hp]
    | page rows =>
      have hlen : rows.length ≤ 1000 := hrows page rows hp
      have hproc : (processRows rows).length ≤ rows.length := List.length_filterMap_le _ _
      by_cases he : rows.isEmpty
      · simp only [fetchLoop, hp]
        rw [if_pos he]
        simp
      · simp only [fetchLoop, hp]
        rw [if_neg he]
        by_cases hc : 10 < page + 1
        · rw [if_pos hc]
          simp only [List.length_append]
          omega
        · rw [if_neg hc]
          have h := ih (page + 1) (acc ++ processRows rows) (reqs ++ [page])
          simp only [List.length_append] at h ⊢
          omega

/-- C4: the per-domain fetch always terminates within the 10-page ceiling
(the loop breaks on a zero-row page, on an unrecognized response shape, or
once the page counter passes 10): it issues at most 10 page requests, and
when every served page holds at most the requested 1000 rows it returns at
most 10000 keyword records, no matter how much more data exists. -/
theorem C4_pagination_bounded (pages : Nat → PageOutcome)
    (hrows : ∀ p rows, pages p = PageOutcome.page rows → rows.length ≤ 1000) :
    (fetch_domain_keywords pages).pagesRequested.length ≤ 10 ∧
    (fetch_domain_keywords pages).records.length ≤ 10000 := by
  constructor
  · have h := fetchLoop_reqs_le pages 10 1 [] []
    simpa [fetch_domain_keywords] using h
  · have h := fetchLoop_records_le pages hrows 10 1 [] []
    simpa [fetch_domain_keywords] using h

/-- C4 witness: the all-malformed page oracle instantiates the page-size
hypothesis and both bounds. -/
theorem C4_witness :
    (∀ p rows, (fun _ : Nat => PageOutcome.malformed) p = PageOutcome.page rows →
      rows.length ≤ 1000) ∧
    ((fetch_domain_keywords (fun _ => PageOutcome.malformed)).pagesRequested.length ≤ 10 ∧
      (fetch_domain_keywords (fun _ => PageOutcome.malformed)).records.length ≤ 10000) :=
  ⟨fun _ _ h => PageOutcome.noConfusion h,
    C4_pagination_bounded (fun _ => PageOutcome.malformed)
      (fun _ _ h => PageOutcome.noConfusion h)⟩

theorem dictLookup_dictInsert {α : Type} (k d : String) (v : α) (l : List (String × α)) :
    dictLookup k (dictInsert d v l) = if d = k then some v else dictLookup k l := by
  induction l with
  | nil => simp [dictInsert, dictLookup]
  | cons hd tl ih =>
    obtain ⟨k', v'⟩ := hd
    by_cases hk : k' = d
    · subst hk
      simp only [dictInsert, if_pos rfl]
      by_cases hdk : k' = k
      · simp [dictLookup, hdk]
      · simp [dictLookup, hdk]
    · simp only [dictInsert]
      rw [if_neg hk]
      simp only [dictLookup]
      by_cases hk'k : k' = k
      · have hdk : ¬ (d = k) := fun h => hk (hk'k.trans h.symm)
        rw [if_pos hk'k, if_neg hdk, if_pos hk'k]
      · rw [if_neg hk'k, ih]
        by_cases hdk : d = k
        · rw [if_pos hdk, if_pos hdk]
        · rw [if_neg hdk, if_neg hdk, if_neg hk'k]

theorem dictLookup_fold {α : Type} (f : String → α) (l : List String) :
    ∀ (acc : List (String × α)) (k : String),
      dictLookup k (l.foldl (fun acc d => dictInsert d (f d) acc) acc) =
        if k ∈ l then some (f k) else dictLookup k acc := by
  induction l with
  | nil => intro acc k; simp
  | cons d rest ih =>
    intro acc k
    simp only [List.foldl_cons]
    rw [ih (dictInsert d (f d) acc) k]
    by_cases hmem : k ∈ rest
    · rw [if_pos hmem, if_pos (List.mem_cons_of_mem d hmem)]
    · rw [if_neg hmem, dictLookup_dictInsert]
      by_cases hdk : d = k
      · subst hdk
        rw [if_pos rfl, if_pos (List.mem_cons_self d rest)]
      · have hknotin : ¬ (k ∈ d :: rest) := by
          intro h
          rcases List.mem_cons.1 h with h1 | h1
          · exact hdk h1.symm
          · exact hmem h1
        rw [if_neg hdk, if_neg hknotin]

theorem dictKeys_dictInsert {α : Type} (d : String) (v : α) (l : List (String × α)) :
    dictKeys (dictInsert d v l) =
      if d ∈ dictKeys l then dictKeys l else dictKeys l ++ [d] := by
  induction l with
  | nil => simp [dictInsert, dictKeys]
  | cons hd tl ih =>
    obtain ⟨k', v'⟩ := hd
    by_cases hk : k' = d
    · subst hk
      simp [dictInsert, dictKeys]
    · simp only [dictInsert]
      rw [if_neg hk]
      simp only [dictKeys, List.map_cons] at ih ⊢
      rw [ih]
      have hne : ¬ (d = k') := fun h => hk h.symm
      by_cases hmem : d ∈ tl.map Prod.fst
      · rw [if_pos hmem, if_pos (List.mem_cons_of_mem k' hmem)]
      · have hnotin : ¬ (d ∈ k' :: tl.map Prod.fst) := by
          intro h
          rcases List.mem_cons.1 h with h1 | h1
          · exact hne h1
          · exact hmem h1
        rw [if_neg hmem, if_neg hnotin]
        simp

theorem mem_dictKeys_dictInsert {α : Type} (k d : String) (v : α) (l : List (String × α)) :
    k ∈ dictKeys (dictInsert d v l) ↔ k = d ∨ k ∈ dictKeys l := by
  rw [dictKeys_dictInsert]
  by_cases hmem : d ∈ dictKeys l
  · rw [if_pos hmem]
    constructor
    · intro h; exact Or.inr h
    · rintro (rfl | h)
      · exact hmem
      · exact h
  · rw [if_neg hmem]
    simp [List.mem_append, or_comm]

theorem nodup_dictKeys_dictInsert {α : Type} (d : String) (v : α) (l : List (String × α))
    (h : (dictKeys l).Nodup) : (dictKeys (dictInsert d v l)).Nodup := by
  rw [dictKeys_dictInsert]
  by_cases hmem : d ∈ dictKeys l
  · rwa [if_pos hmem]
  · rw [if_neg hmem]
    rw [List.nodup_append]
    exact ⟨h, List.nodup_singleton d, by simpa [List.disjoint_singleton] using hmem⟩

theorem dictKeys_fold_mem {α : Type} (f : String → α) (l : List String) :
    ∀ (acc : List (String × α)) (k : String),
      k ∈ dictKeys (l.foldl (fun acc d => dictInsert d (f d) acc) acc) ↔
        (k ∈ dictKeys acc ∨ k ∈ l) := by
  induction l with
  | nil => intro acc k; simp
  | cons d rest ih =>
    intro acc k
    simp only [List.foldl_cons]
    rw [ih (dictInsert d (f d) acc) k, mem_dictKeys_dictInsert]
    simp [List.mem_cons]
    tauto

theorem nodup_dictKeys_fold {α : Type} (f : String → α) (l : List String) :
    ∀ acc : List (String × α), (dictKeys acc).Nodup →
      (dictKeys (l.foldl (fun acc d => dictInsert d (f d) acc) acc)).Nodup := by
  induction l with
  | nil => intro acc h; simpa
  | cons d rest ih =>
    intro acc h
    simp only [List.foldl_cons]
    exact ih _ (nodup_dictKeys_dictInsert d (f d) acc h)

theorem analyze_ok_fields (fetched : String → List KeywordRecord) (p : String)
    (comps : List String) (res : AnalysisResult)
    (h : analyze_market_opportunity fetched p comps = Except.ok res) :
    res.domain_metrics = domainMetricsDict (combinedRows fetched p comps) (p :: comps) ∧
    overlapLoop (((fetched p).map KeywordRecord.keyword).dedup)
        (combinedRows fetched p comps) comps [] = Except.ok res.keyword_overlap := by
  simp only [analyze_market_opportunity] at h
  by_cases hcomb : combinedRows fetched p comps = []
  · rw [if_pos hcomb] at h
    exact Except.noConfusion h
  · rw [if_neg hcomb] at h
    by_cases hp : fetched p = []
    · rw [if_pos hp] at h
      exact Except.noConfusion h
    · rw [if_neg hp] at h
      cases hov : overlapLoop (((fetched p).map KeywordRecord.keyword).dedup)
          (combinedRows fetched p comps) comps [] with
      | error e =>
        rw [hov] at h
        exact Except.noConfusion h
      | ok overlaps =>
        rw [hov] at h
        have hres := Except.ok.inj h
        subst hres
        exact ⟨rfl, rfl⟩

theorem mem_combinedRows (fetched : String → List KeywordRecord) (p : String)
    (comps : List String) (q : String × KeywordRecord)
    (h : q ∈ combinedRows fetched p comps) : q.2 ∈ fetched q.1 := by
  unfold combinedRows tagRows at h
  rw [List.mem_append] at h
  rcases h with h | h
  · obtain ⟨r, hr, rfl⟩ := List.mem_map.1 h
    simpa using hr
  · rw [List.mem_flatMap] at h
    obtain ⟨d, hd, hq⟩ := h
    obtain ⟨r, hr, rfl⟩ := List.mem_map.1 hq
    simpa using hr

theorem rowsOf_combined_empty (fetched : String → List KeywordRecord) (p : String)
    (comps : List String) (d : String) (hd : fetched d = []) :
    rowsOf (combinedRows fetched p comps) d = [] := by
  unfold rowsOf
  have hfil : (combinedRows fetched p comps).filter (fun q => q.1 = d) = [] := by
    rw [List.filter_eq_nil_iff]
    intro q hq
    simp only [decide_eq_true_eq]
    intro hqd
    have hmem := mem_combinedRows fetched p comps q hq
    rw [hqd, hd] at hmem
    exact absurd hmem (List.not_mem_nil _)
  rw [hfil]
  rfl

theorem overlapLoop_ok (prospectKW : List String) (combined : List (String × KeywordRecord))
    (hne : ¬ (prospectKW.length = 0)) :
    ∀ (comps : List String) (acc : List (String × OverlapStats)),
      overlapLoop prospectKW combined comps acc =
        Except.ok (comps.foldl
          (fun acc d => dictInsert d (overlapStats prospectKW combined d) acc) acc) := by
  intro comps
  induction comps with
  | nil => intro acc; simp [overlapLoop]
  | cons d rest ih =>
    intro acc
    simp only [overlapLoop, overlapFor]
    rw [if_neg hne]
    simp only [List.foldl_cons]
    exact ih _

/-- C3 (amended): when the prospect's fetched keyword set is empty and at
least one competitor domain is given, the analysis does fail and returns no
result — but with a `KeyError` on the missing `keyword` column of the empty
prospect DataFrame (at `set(prospect_data['keyword'])`), not with a division
by zero: the overlap division is never reached with a zero denominator, on
any input. -/
theorem C3_empty_prospect_key_error :
    (∀ (fetched : String → List KeywordRecord) (p : String) (comps : List String),
      fetched p = [] → comps ≠ [] →
      analyze_market_opportunity fetched p comps =
        Except.error (AnalysisError.keyError "keyword")) ∧
    (∀ (fetched : String → List KeywordRecord) (p : String) (comps : List String),
      analyze_market_opportunity fetched p comps ≠
        Except.error AnalysisError.divisionByZero) := by
  constructor
  · intro fetched p comps hp _
    simp only [analyze_market_opportunity]
    by_cases hcomb : combinedRows fetched p comps = []
    · rw [if_pos hcomb]
    · rw [if_neg hcomb, if_pos hp]
  · intro fetched p comps hcontra
    simp only [analyze_market_opportunity] at hcontra
    by_cases hcomb : combinedRows fetched p comps = []
    · rw [if_pos hcomb] at hcontra
      exact AnalysisError.noConfusion (Except.error.inj hcontra)
    · rw [if_neg hcomb] at hcontra
      by_cases hp : fetched p = []
      · rw [if_pos hp] at hcontra
        exact AnalysisError.noConfusion (Except.error.inj hcontra)
      · rw [if_neg hp] at hcontra
        have hne : ¬ ((((fetched p).map KeywordRecord.keyword).dedup).length = 0) := by
          intro h0
          have hnil := List.length_eq_zero.1 h0
          obtain ⟨r, rs, hrs⟩ : ∃ r rs, fetched p = r :: rs := by
            cases hfp : fetched p with
            | nil => exact absurd hfp hp
            | cons r rs => exact ⟨r, rs, rfl⟩
          have hmem : r.keyword ∈ ((fetched p).map KeywordRecord.keyword).dedup := by
            rw [List.mem_dedup, hrs]
            exact List.mem_map_of_mem _ (List.mem_cons_self r rs)
          rw [hnil] at hmem
          exact absurd hmem (List.not_mem_nil _)
        rw [overlapLoop_ok _ _ hne comps []] at hcontra
        exact Except.noConfusion hcontra

/-- C3 counterexample: prospect fetch empty, one competitor with a row. The
claim says the overlap computation divides by zero; the code instead raises
`KeyError` at the `prospect_data['keyword']` column access, before the
division is ever reached. -/
theorem C3_counterexample :
    analyze_market_opportunity emptyProspectFetched "prospect" ["competitor"] =
      Except.error (AnalysisError.keyError "keyword") ∧
    analyze_market_opportunity emptyProspectFetched "prospect" ["competitor"] ≠
      Except.error AnalysisError.divisionByZero := by
  have h : analyze_market_opportunity emptyProspectFetched "prospect" ["competitor"] =
      Except.error (AnalysisError.keyError "keyword") := rfl
  refine ⟨h, ?_⟩
  rw [h]
  intro hc
  exact AnalysisError.noConfusion (Except.error.inj hc)

/-- C3 witness: the amended failure mode at the concrete input. -/
theorem C3_witness :
    (emptyProspectFetched "prospect" = [] ∧ (["competitor"] : List String) ≠ []) ∧
    analyze_market_opportunity emptyProspectFetched "prospect" ["competitor"] =
      Except.error (AnalysisError.keyError "keyword") :=
  ⟨⟨rfl, by simp⟩,
    C3_empty_prospect_key_error.1 emptyProspectFetched "prospect" ["competitor"] rfl
      (by simp)⟩

/-- C9: in every successful analysis, `domain_metrics` has exactly one entry
per domain of `[prospect_domain] + competitor_domains` (its key list is
duplicate-free and holds exactly the domains of that list), and a domain
whose fetch returned zero rows gets `total_keywords = 0` with an explicit
undefined (`none`, the model of pandas NaN) mean position and mean
difficulty, not a silent zero. -/
theorem C9_domain_metrics (fetched : String → List KeywordRecord) (p : String)
    (comps : List String) (res : AnalysisResult)
    (h : analyze_market_opportunity fetched p comps = Except.ok res) :
    ((dictKeys res.domain_metrics).Nodup ∧
      (∀ d, d ∈ dictKeys res.domain_metrics ↔ d ∈ p :: comps)) ∧
    (∀ d, d ∈ p :: comps → fetched d = [] →
      dictLookup d res.domain_metrics = some ⟨0, none, 0, none⟩) := by
  obtain ⟨hdm, _⟩ := analyze_ok_fields fetched p comps res h
  rw [hdm]
  unfold domainMetricsDict
  refine ⟨⟨?_, ?_⟩, ?_⟩
  · exact nodup_dictKeys_fold _ _ [] (by simp [dictKeys])
  · intro d
    rw [dictKeys_fold_mem]
    simp [dictKeys]
  · intro d hdmem hdfetch
    rw [dictLookup_fold, if_pos hdmem]
    have hrows : rowsOf (combinedRows fetched p comps) d = [] :=
      rowsOf_combined_empty fetched p comps d hdfetch
    simp [metricsFor, hrows, listMean]

/-- C9 witness: prospect with one row, competitor fetch empty — the
competitor's metrics entry is 0 keywords with undefined means. -/
theorem C9_witness :
    zeroRowFetched "competitor" = [] ∧
    (analyze_market_opportunity zeroRowFetched "prospect" ["competitor"]).map
        (fun r => dictLookup "competitor" r.domain_metrics) =
      Except.ok (some ⟨0, none, 0, none⟩) := by
  refine ⟨rfl, ?_⟩
  obtain ⟨res, hres⟩ : ∃ r, analyze_market_opportunity zeroRowFetched "prospect"
      ["competitor"] = Except.ok r := ⟨_, rfl⟩
  have h2 := (C9_domain_metrics zeroRowFetched "prospect" ["competitor"] res hres).2
    "competitor" (by simp) rfl
  rw [hres]
  simp only [Except.map]
  rw [h2]

theorem dedup_toFinset (P : List String) : P.dedup.toFinset = P.toFinset := by
  ext a
  simp [List.mem_dedup]

theorem nodup_length_eq_card (P : List String) (h : P.Nodup) :
    P.length = P.toFinset.card := by
  rw [List.card_toFinset, h.dedup]

theorem filter_mem_length_card (P C : List String) :
    ((P.dedup).filter (fun k => k ∈ C)).length = (P.toFinset ∩ C.toFinset).card := by
  have hnodup : ((P.dedup).filter (fun k => decide (k ∈ C))).Nodup :=
    (List.nodup_dedup P).filter _
  rw [nodup_length_eq_card _ hnodup, List.toFinset_filter, dedup_toFinset]
  have hcongr : P.toFinset.filter (fun a => decide (a ∈ C) = true) =
      P.toFinset.filter (fun a => a ∈ C.toFinset) := by
    apply Finset.filter_congr
    intro x _
    simp
  rw [hcongr, Finset.filter_mem_eq_inter]

theorem overlapStats_spec (fetched : String → List KeywordRecord) (p : String)
    (comps : List String) (d : String) :
    overlapStats (((fetched p).map KeywordRecord.keyword).dedup)
        (combinedRows fetched p comps) d =
      ⟨((prospectKeywordSet fetched p) ∩ (domainKeywordSet fetched p comps d)).card,
        (((prospectKeywordSet fetched p) ∩ (domainKeywordSet fetched p comps d)).card : ℚ) /
          ((prospectKeywordSet fetched p).card : ℚ) * 100⟩ := by
  simp only [overlapStats, keywordSetOf, prospectKeywordSet, domainKeywordSet]
  have hover := filter_mem_length_card ((fetched p).map KeywordRecord.keyword)
    (((rowsOf (combinedRows fetched p comps) d).map KeywordRecord.keyword).dedup)
  rw [dedup_toFinset] at hover
  have hlen : (((fetched p).map KeywordRecord.keyword).dedup).length =
      ((fetched p).map KeywordRecord.keyword).toFinset.card := by
    rw [List.card_toFinset]
  rw [hover, hlen]

/-- C8: in every successful analysis the overlap entry of each competitor
domain holds `overlap_count` = |prospect keyword set ∩ competitor keyword
set| and `overlap_percentage` = that count divided by the prospect set's
size, times 100; on the specification's example (prospect keywords a, b, c
against competitor keywords b, c, d) this gives 2 and 200/3 ≈ 66.67. -/
theorem C8_keyword_overlap :
    (∀ (fetched : String → List KeywordRecord) (p : String) (comps : List String)
        (res : AnalysisResult) (d : String),
      analyze_market_opportunity fetched p comps = Except.ok res → d ∈ comps →
      dictLookup d res.keyword_overlap =
        some ⟨((prospectKeywordSet fetched p) ∩ (domainKeywordSet fetched p comps d)).card,
          (((prospectKeywordSet fetched p) ∩ (domainKeywordSet fetched p comps d)).card : ℚ) /
            ((prospectKeywordSet fetched p).card : ℚ) * 100⟩) ∧
    (analyze_market_opportunity overlapExampleFetched "prospect" ["competitor"]).map
        (fun r => dictLookup "competitor" r.keyword_overlap) =
      Except.ok (some ⟨2, 200 / 3⟩) := by
  have hgen : ∀ (fetched : String → List KeywordRecord) (p : String) (comps : List String)
      (res : AnalysisResult) (d : String),
      analyze_market_opportunity fetched p comps = Except.ok res → d ∈ comps →
      dictLookup d res.keyword_overlap =
        some ⟨((prospectKeywordSet fetched p) ∩ (domainKeywordSet fetched p comps d)).card,
          (((prospectKeywordSet fetched p) ∩ (domainKeywordSet fetched p comps d)).card : ℚ) /
            ((prospectKeywordSet fetched p).card : ℚ) * 100⟩ := by
    intro fetched p comps res d h hdmem
    obtain ⟨_, hov⟩ := analyze_ok_fields fetched p comps res h
    have hne : ¬ ((((fetched p).map KeywordRecord.keyword).dedup).length = 0) := by
      intro h0
      have hnil : (((fetched p).map KeywordRecord.keyword).dedup) = [] :=
        List.length_eq_zero.1 h0
      obtain ⟨c, rest, rfl⟩ : ∃ c rest, comps = c :: rest := by
        cases comps with
        | nil => cases hdmem
        | cons c rest => exact ⟨c, rest, rfl⟩
      rw [hnil] at hov
      simp [overlapLoop, overlapFor] at hov
    rw [overlapLoop_ok _ _ hne comps []] at hov
    have hkw := Except.ok.inj hov
    rw [← hkw, dictLookup_fold, if_pos hdmem, overlapStats_spec]
  refine ⟨hgen, ?_⟩
  obtain ⟨res, hres⟩ : ∃ r, analyze_market_opportunity overlapExampleFetched "prospect"
      ["competitor"] = Except.ok r := ⟨_, rfl⟩
  have h := hgen overlapExampleFetched "prospect" ["competitor"] res "competitor" hres
    (by simp)
  rw [hres]
  simp only [Except.map]
  rw [h]
  have hc1 : ((prospectKeywordSet overlapExampleFetched "prospect") ∩
      (domainKeywordSet overlapExampleFetched "prospect" ["competitor"] "competitor")).card =
      2 := by decide
  have hc2 : (prospectKeywordSet overlapExampleFetched "prospect").card = 3 := by decide
  rw [hc1, hc2]
  norm_num

/-- C8 witness: the general overlap formula applied to the specification's
example inputs. -/
theorem C8_witness :
    ("competitor" ∈ (["competitor"] : List String)) ∧
    (analyze_market_opportunity overlapExampleFetched "prospect" ["competitor"]).map
        (fun r => dictLookup "competitor" r.keyword_overlap) =
      Except.ok (some ⟨((prospectKeywordSet overlapExampleFetched "prospect") ∩
          (domainKeywordSet overlapExampleFetched "prospect" ["competitor"] "competitor")).card,
        (((prospectKeywordSet overlapExampleFetched "prospect") ∩
          (domainKeywordSet overlapExampleFetched "prospect" ["competitor"] "competitor")).card :
            ℚ) /
          ((prospectKeywordSet overlapExampleFetched "prospect").card : ℚ) * 100⟩) := by
  refine ⟨by simp, ?_⟩
  obtain ⟨res, hres⟩ : ∃ r, analyze_market_opportunity overlapExampleFetched "prospect"
      ["competitor"] = Except.ok r := ⟨_, rfl⟩
  have h := C8_keyword_overlap.1 overlapExampleFetched "prospect" ["competitor"] res
    "competitor" hres (by simp)
  rw [hres]
  simp only [Except.map]
  rw [h]

end MOE
